import Mathlib

/-!
Verification development for the IXWebSocket cobra bot engine
(`ixbots/IXCobraBot.cpp`).

The C++ engine is shallowly embedded: the shared mutable state touched by the
worker threads (`sentCount`, `receivedCount`, `stop`, `throttled`,
`fatalCobraError`, the bounded queue) becomes an explicit `BotState` record,
and each callback / loop body of `CobraBot::run` becomes a state-passing
function.  Thread interleavings are represented by explicit traces of atomic
actions; machine counters (`std::atomic<uint64_t>`) are modelled as `Nat`
(the claims under study all assume the counters are monotonically
non-decreasing and far from overflow).
-/

namespace IXCobraBot

/-- The discriminated event tag delivered to `conn.setEventCallback`
(`ix::CobraEventType`). -/
inductive CobraEventType where
  | Open
  | Authenticated
  | Error
  | Closed
  | Subscribed
  | UnSubscribed
  | Published
  | Pong
  | HandshakeError
  | AuthenticationError
  | SubscriptionError
  deriving DecidableEq, Repr

/-- Inbound message payload (`Json::Value`): opaque to the engine, modelled as
an identifier. -/
abbrev Msg := Nat

/-- Modelled from the spec: `QueueManager::add` lives in `IXQueueManager.cpp`,
which is not among the sources (only its caller `IXCobraBot.cpp` is).
Spec 4.1: "`add(msg)`: inserts at the tail. If `size() == maxSize` before
insertion, evicts the head first. Never fails, never blocks."  The queue is a
list whose head is the oldest element. -/
def queueAdd (maxSize : Nat) (q : List Msg) (m : Msg) : List Msg :=
  if q.length = maxSize then q.tail ++ [m] else q ++ [m]

/-- Modelled from the spec: `QueueManager::pop` is likewise not among the
sources.  Spec 4.1: "`pop()`: removes and returns the head; returns an
\"empty\" marker if the queue is empty. Never blocks."  The C++ empty marker
is a null `Json::Value`; here it is `none`. -/
def queuePop (q : List Msg) : Option Msg × List Msg :=
  match q with
  | [] => (none, [])
  | m :: rest => (some m, rest)

/-- The shared mutable state of one `CobraBot::run` invocation: the atomic
counters and flags declared at the top of `run`, plus the `QueueManager`
contents. -/
structure BotState where
  sentCount : Nat
  receivedCount : Nat
  stop : Bool
  throttled : Bool
  fatalCobraError : Bool
  queue : List Msg
  deriving DecidableEq, Repr

/-- All counters zero, all flags false, queue empty — the state right after
the declarations at the top of `CobraBot::run`. -/
def initState : BotState :=
  { sentCount := 0
    receivedCount := 0
    stop := false
    throttled := false
    fatalCobraError := false
    queue := [] }

/-- The user sink callback (`OnBotMessageCallback`): receives the message, the
verbose flag and the current value of the `throttled` atomic (passed by
reference in C++); returns the success boolean together with the value it
leaves in `throttled`. -/
abbrev BotCallback := Msg → Bool → Bool → Bool × Bool

/-- The per-message subscription callback installed on `Authenticated`
(IXCobraBot.cpp lines 147-162): if `throttled` is set, the message is dropped
silently; otherwise `receivedCount` is incremented and the message is added
to the queue. -/
def onInboundMessage (maxSize : Nat) (st : BotState) (m : Msg) : BotState :=
  if st.throttled then st
  else
    { st with
      receivedCount := st.receivedCount + 1
      queue := queueAdd maxSize st.queue m }

/-- The connection event handler registered with `conn.setEventCallback`
(IXCobraBot.cpp lines 117-199).  Only the three fatal event kinds write shared
state (`fatalCobraError = true`); every other branch merely logs
(`Authenticated` also issues the subscribe request on the connection, which
touches no shared engine state). -/
def handleEvent (st : BotState) (e : CobraEventType) : BotState :=
  match e with
  | .HandshakeError => { st with fatalCobraError := true }
  | .AuthenticationError => { st with fatalCobraError := true }
  | .SubscriptionError => { st with fatalCobraError := true }
  | _ => st

/-- One iteration of the `sender` loop body (IXCobraBot.cpp lines 88-110):
pop, break if `stop`, skip a null pop, otherwise invoke the callback (if one
is registered) and increment `sentCount` exactly when it returns true.
Returns the new state together with `true` when the loop breaks out. -/
def senderIter (cb : Option BotCallback) (verbose : Bool) (st : BotState) :
    BotState × Bool :=
  let p := queuePop st.queue
  let st1 := { st with queue := p.2 }
  if st1.stop then (st1, true)
  else
    match p.1 with
    | none => (st1, false)
    | some m =>
      match cb with
      | none => (st1, st1.stop)
      | some f =>
        let r := f m verbose st1.throttled
        let st2 := { st1 with throttled := r.2 }
        if r.1 then ({ st2 with sentCount := st2.sentCount + 1 }, st2.stop)
        else (st2, st2.stop)

/-- An atomic action observed by the shared state during a run: a connection
event delivered by the transport, an inbound message delivered through the
subscription callback, or one iteration of the sender loop. -/
inductive Action where
  | connEvent (e : CobraEventType)
  | inbound (m : Msg)
  | senderStep
  deriving DecidableEq, Repr

/-- Effect of one action on the shared state. -/
def stepAction (maxSize : Nat) (cb : Option BotCallback) (verbose : Bool)
    (st : BotState) : Action → BotState
  | .connEvent e => handleEvent st e
  | .inbound m => onInboundMessage maxSize st m
  | .senderStep => (senderIter cb verbose st).1

/-- Run an interleaving trace of actions from a given state. -/
def runTrace (maxSize : Nat) (cb : Option BotCallback) (verbose : Bool)
    (st : BotState) (actions : List Action) : BotState :=
  actions.foldl (stepAction maxSize cb verbose) st

/-- The value computed by the `return` statement of `CobraBot::run`
(line 240): `-1` on a fatal cobra error, the final `sentCount` otherwise. -/
def runResult (st : BotState) : Int :=
  if st.fatalCobraError then -1 else (st.sentCount : Int)

/-- The shutdown sequence after the supervision loop (lines 228-238):
`stop = true` is published to all worker loops. -/
def shutdown (st : BotState) : BotState :=
  { st with stop := true }

/-- Return value of a whole run whose supervision phase observed the given
action trace. -/
def botRun (maxSize : Nat) (cb : Option BotCallback) (verbose : Bool)
    (actions : List Action) : Int :=
  runResult (runTrace maxSize cb verbose initState actions)

/-- Number of inbound-message deliveries in a trace. -/
def countInbound : List Action → Nat
  | [] => 0
  | .inbound _ :: rest => countInbound rest + 1
  | .connEvent _ :: rest => countInbound rest
  | .senderStep :: rest => countInbound rest

/-- A whole sequence of `add` operations on the queue, oldest first. -/
def addAll (maxSize : Nat) (q : List Msg) (ms : List Msg) : List Msg :=
  ms.foldl (queueAdd maxSize) q

lemma queueAdd_length_le (C : Nat) (hC : 1 ≤ C) (q : List Msg) (m : Msg)
    (hq : q.length ≤ C) : (queueAdd C q m).length ≤ C := by
  unfold queueAdd
  split
  · rename_i h
    cases q with
    | nil => simp at h; omega
    | cons a t => simp at h ⊢; omega
  · rename_i h
    simp
    omega

lemma addAll_nil_eq_drop (C : Nat) (hC : 1 ≤ C) (ms : List Msg) :
    addAll C [] ms = ms.drop (ms.length - C) := by
  induction ms using List.reverseRecOn with
  | nil => simp [addAll]
  | append_singleton ms' m ih =>
    have hfold : addAll C [] (ms' ++ [m]) = queueAdd C (addAll C [] ms') m := by
      simp [addAll]
    rw [hfold, ih]
    by_cases hlt : ms'.length < C
    · have h1 : ms'.length - C = 0 := by omega
      have h2 : ms'.length + 1 - C = 0 := by omega
      rw [h1]
      simp only [List.drop_zero]
      have hne : ms'.length ≠ C := by omega
      simp [queueAdd, hne, h2]
    · have hge : C ≤ ms'.length := by omega
      have hlen : (ms'.drop (ms'.length - C)).length = C := by
        simp; omega
      rw [queueAdd, if_pos hlen]
      have htail : (ms'.drop (ms'.length - C)).tail = ms'.drop (ms'.length - C + 1) := by
        rw [← List.drop_one, List.drop_drop, Nat.add_comm]
      rw [htail]
      have harith : ms'.length + 1 - C = ms'.length - C + 1 := by omega
      simp [harith]
      rw [List.drop_append_of_le_length (by omega)]

/-- C3 fails as stated at capacity `C = 0`: §4.1's `add` evicts the head only
when `size() == maxSize` holds *before* insertion, so at capacity `0` the
first `add` grows the queue to size `1 > 0` (and afterwards the size never
again equals `0`, so the queue grows without bound). -/
theorem C3_counterexample :
    ¬ ((addAll 0 [] [0, 1]).length ≤ 0) := by decide

/-- C3 (amended to capacities `C ≥ 1`): the queue size never exceeds `C`;
`add` at capacity evicts the oldest element and inserts at the tail; after
adding `C + k` elements (`k > 0`) with no intervening pops the queue holds
exactly the last `C` inserted elements in insertion order, which successive
pops return head-first; popping an empty queue returns the empty marker. -/
theorem C3_boundedQueue (C : Nat) (hC : 1 ≤ C) :
    (∀ ms : List Msg, (addAll C [] ms).length ≤ C) ∧
    (∀ (q : List Msg) (m : Msg), q.length = C → queueAdd C q m = q.tail ++ [m]) ∧
    (∀ (ms : List Msg) (k : Nat), 0 < k → ms.length = C + k →
      addAll C [] ms = ms.drop k) ∧
    queuePop [] = (none, []) ∧
    (∀ (m : Msg) (q : List Msg), queuePop (m :: q) = (some m, q)) := by
  refine ⟨?_, ?_, ?_, rfl, fun m q => rfl⟩
  · intro ms
    rw [addAll_nil_eq_drop C hC]
    simp
    omega
  · intro q m hq
    simp [queueAdd, hq]
  · intro ms k hk hlen
    rw [addAll_nil_eq_drop C hC, hlen]
    congr 1
    omega

/-- Closed-form instance discharging the hypotheses of `C3_boundedQueue` at
capacity `2`, overload scenario from §8: add `A, B, C` to a queue of
capacity `2`, the queue then holds `[B, C]` and pops yield `B` then `C`. -/
theorem C3_boundedQueue_witness :
    (1 ≤ 2) ∧ addAll 2 [] [10, 11, 12] = [11, 12] ∧
      queuePop [11, 12] = (some 11, [12]) ∧ queuePop [12] = (some 12, []) := by
  refine ⟨by decide, ?_, by decide, by decide⟩
  have h := (C3_boundedQueue 2 (by decide)).2.2.1 [10, 11, 12] 1 (by decide) (by decide)
  simpa using h

/-- C4: delivery of an inbound message while `throttled` is set leaves the
state untouched (no `receivedCount` increment, no enqueue); while clear, it
increments `receivedCount` exactly once and enqueues the message, touching
nothing else.  The behaviour depends only on the current value of the flag,
not on how often it was toggled. -/
theorem C4_throttleDrop (maxSize : Nat) (st : BotState) (m : Msg) :
    (st.throttled = true → onInboundMessage maxSize st m = st) ∧
    (st.throttled = false →
      (onInboundMessage maxSize st m).receivedCount = st.receivedCount + 1 ∧
      (onInboundMessage maxSize st m).queue = queueAdd maxSize st.queue m ∧
      (onInboundMessage maxSize st m).sentCount = st.sentCount ∧
      (onInboundMessage maxSize st m).stop = st.stop ∧
      (onInboundMessage maxSize st m).throttled = st.throttled ∧
      (onInboundMessage maxSize st m).fatalCobraError = st.fatalCobraError) := by
  constructor
  · intro h
    simp [onInboundMessage, h]
  · intro h
    simp [onInboundMessage, h]

/-- Witness for `C4_throttleDrop` at a concrete throttled state and a concrete
clear state. -/
theorem C4_throttleDrop_witness :
    onInboundMessage 4 { initState with throttled := true } 7
        = { initState with throttled := true } ∧
    (onInboundMessage 4 initState 7).receivedCount = 1 := by
  constructor
  · exact (C4_throttleDrop 4 { initState with throttled := true } 7).1 rfl
  · have h := ((C4_throttleDrop 4 initState 7).2 rfl).1
    simpa [initState] using h

/-- C8: the transient events `Closed`, `Error`, `Pong` and `Published` leave
the shared state completely unchanged — the handler branch only logs. -/
theorem C8_transientFrame (st : BotState) (e : CobraEventType)
    (h : e = .Closed ∨ e = .Error ∨ e = .Pong ∨ e = .Published) :
    handleEvent st e = st := by
  rcases h with h | h | h | h <;> subst h <;> rfl

/-- Witness for `C8_transientFrame` on a `Closed` event at a nontrivial
state. -/
theorem C8_transientFrame_witness :
    handleEvent { initState with receivedCount := 5 } .Closed
      = { initState with receivedCount := 5 } :=
  C8_transientFrame { initState with receivedCount := 5 } .Closed (Or.inl rfl)

lemma handleEvent_frame (st : BotState) (e : CobraEventType) :
    (handleEvent st e).sentCount = st.sentCount ∧
    (handleEvent st e).receivedCount = st.receivedCount ∧
    (handleEvent st e).stop = st.stop ∧
    (handleEvent st e).throttled = st.throttled ∧
    (handleEvent st e).queue = st.queue := by
  cases e <;> simp [handleEvent]

lemma senderIter_frame (cb : Option BotCallback) (v : Bool) (st : BotState) :
    ((senderIter cb v st).1).fatalCobraError = st.fatalCobraError ∧
    ((senderIter cb v st).1).stop = st.stop ∧
    ((senderIter cb v st).1).receivedCount = st.receivedCount := by
  cases hq : st.queue with
  | nil =>
    simp only [senderIter, queuePop, hq]
    split <;> simp
  | cons m rest =>
    simp only [senderIter, queuePop, hq]
    split
    · simp
    · cases cb with
      | none => simp
      | some f => dsimp only; split <;> simp

lemma senderIter_none_sent (v : Bool) (st : BotState) :
    ((senderIter none v st).1).sentCount = st.sentCount := by
  cases hq : st.queue with
  | nil =>
    simp only [senderIter, queuePop, hq]
    split <;> simp
  | cons m rest =>
    simp only [senderIter, queuePop, hq]
    split <;> simp

lemma handleEvent_fatal_mono (st : BotState) (e : CobraEventType)
    (h : st.fatalCobraError = true) :
    (handleEvent st e).fatalCobraError = true := by
  cases e <;> simp [handleEvent, h]

lemma stepAction_fatal_mono (maxSize : Nat) (cb : Option BotCallback) (v : Bool)
    (st : BotState) (a : Action) (h : st.fatalCobraError = true) :
    (stepAction maxSize cb v st a).fatalCobraError = true := by
  cases a with
  | connEvent e => exact handleEvent_fatal_mono st e h
  | inbound m =>
    simp only [stepAction, onInboundMessage]
    split <;> simp [h]
  | senderStep =>
    simp only [stepAction]
    rw [(senderIter_frame cb v st).1]
    exact h

lemma runTrace_cons (maxSize : Nat) (cb : Option BotCallback) (v : Bool)
    (st : BotState) (a : Action) (rest : List Action) :
    runTrace maxSize cb v st (a :: rest)
      = runTrace maxSize cb v (stepAction maxSize cb v st a) rest := rfl

lemma runTrace_fatal_mono (maxSize : Nat) (cb : Option BotCallback) (v : Bool)
    (actions : List Action) : ∀ st : BotState, st.fatalCobraError = true →
    (runTrace maxSize cb v st actions).fatalCobraError = true := by
  induction actions with
  | nil => intro st h; exact h
  | cons a rest ih =>
    intro st h
    rw [runTrace_cons]
    exact ih _ (stepAction_fatal_mono maxSize cb v st a h)

lemma runTrace_fatal_of_mem (maxSize : Nat) (cb : Option BotCallback) (v : Bool)
    (actions : List Action) (e : CobraEventType)
    (he : e = .HandshakeError ∨ e = .AuthenticationError ∨ e = .SubscriptionError) :
    ∀ st : BotState, Action.connEvent e ∈ actions →
      (runTrace maxSize cb v st actions).fatalCobraError = true := by
  induction actions with
  | nil => intro st hmem; cases hmem
  | cons a rest ih =>
    intro st hmem
    rw [runTrace_cons]
    rcases List.mem_cons.mp hmem with h | h
    · have hfatal : (stepAction maxSize cb v st a).fatalCobraError = true := by
        rw [← h]
        rcases he with he | he | he <;> subst he <;> simp [stepAction, handleEvent]
      exact runTrace_fatal_mono maxSize cb v rest _ hfatal
    · exact ih (stepAction maxSize cb v st a) h

/-- C2: each of the three fatal event kinds sets `fatalCobraError`; none of
the other eight kinds touches it; and a run whose trace contains any fatal
event returns `-1` — even when no message was ever sent. -/
theorem C2_fatalClassification :
    (∀ (st : BotState) (e : CobraEventType),
      (e = .HandshakeError ∨ e = .AuthenticationError ∨ e = .SubscriptionError) →
      (handleEvent st e).fatalCobraError = true) ∧
    (∀ (st : BotState) (e : CobraEventType),
      ¬(e = .HandshakeError ∨ e = .AuthenticationError ∨ e = .SubscriptionError) →
      (handleEvent st e).fatalCobraError = st.fatalCobraError) ∧
    (∀ (maxSize : Nat) (cb : Option BotCallback) (verbose : Bool)
       (actions : List Action) (e : CobraEventType),
      (e = .HandshakeError ∨ e = .AuthenticationError ∨ e = .SubscriptionError) →
      Action.connEvent e ∈ actions →
      botRun maxSize cb verbose actions = -1) := by
  refine ⟨?_, ?_, ?_⟩
  · intro st e he
    rcases he with he | he | he <;> subst he <;> rfl
  · intro st e he
    cases e <;> simp_all [handleEvent]
  · intro maxSize cb verbose actions e he hmem
    unfold botRun runResult
    rw [runTrace_fatal_of_mem maxSize cb verbose actions e he initState hmem]
    rfl

/-- Witness for `C2_fatalClassification`: a `HandshakeError` delivered to the
initial state sets the flag; an `Open` event leaves it; a run consisting of a
single `AuthenticationError` (no message ever sent) returns `-1`. -/
theorem C2_fatalClassification_witness :
    (handleEvent initState .HandshakeError).fatalCobraError = true ∧
    (handleEvent initState .Open).fatalCobraError = initState.fatalCobraError ∧
    botRun 1 none false [Action.connEvent .AuthenticationError] = -1 := by
  refine ⟨?_, ?_, ?_⟩
  · exact C2_fatalClassification.1 initState .HandshakeError (Or.inl rfl)
  · exact C2_fatalClassification.2.1 initState .Open (by simp)
  · exact C2_fatalClassification.2.2 1 none false
      [Action.connEvent .AuthenticationError] .AuthenticationError
      (Or.inr (Or.inl rfl)) (by simp)

/-- C7: when the sink callback returns `false` on a dequeued message, the
sender iteration leaves `sentCount` alone and the loop keeps going (`stop`
and `fatalCobraError` untouched, loop not exited); the failing message is
simply consumed. -/
theorem C7_sinkFailure (f : BotCallback) (verbose : Bool) (st : BotState)
    (m : Msg) (rest : List Msg)
    (hq : st.queue = m :: rest) (hstop : st.stop = false)
    (hfail : (f m verbose st.throttled).1 = false) :
    ((senderIter (some f) verbose st).1).sentCount = st.sentCount ∧
    (senderIter (some f) verbose st).2 = false ∧
    ((senderIter (some f) verbose st).1).stop = st.stop ∧
    ((senderIter (some f) verbose st).1).fatalCobraError = st.fatalCobraError ∧
    ((senderIter (some f) verbose st).1).queue = rest := by
  simp only [senderIter, queuePop, hq, hstop]
  simp [hfail, hstop]

/-- Witness for `C7_sinkFailure`: a callback that always fails, applied to a
single queued message. -/
theorem C7_sinkFailure_witness :
    ((senderIter (some fun _ _ t => (false, t)) false
        { initState with queue := [3] }).1).sentCount = 0 ∧
    (senderIter (some fun _ _ t => (false, t)) false
        { initState with queue := [3] }).2 = false := by
  have h := C7_sinkFailure (fun _ _ t => (false, t)) false
    { initState with queue := [3] } 3 [] rfl rfl rfl
  exact ⟨h.1, h.2.1⟩

lemma stepAction_none_sent (maxSize : Nat) (v : Bool) (st : BotState)
    (a : Action) :
    (stepAction maxSize none v st a).sentCount = st.sentCount := by
  cases a with
  | connEvent e => exact (handleEvent_frame st e).1
  | inbound m =>
    simp only [stepAction, onInboundMessage]
    split <;> simp
  | senderStep => exact senderIter_none_sent v st

lemma runTrace_none_sent (maxSize : Nat) (verbose : Bool)
    (actions : List Action) : ∀ st : BotState,
    (runTrace maxSize none verbose st actions).sentCount = st.sentCount := by
  induction actions with
  | nil => intro st; rfl
  | cons a rest ih =>
    intro st
    rw [runTrace_cons, ih, stepAction_none_sent]

/-- C10: with no registered sink callback every dequeued message takes the
failure branch: it is consumed, `sentCount` is never incremented over any
trace, and absent a fatal error the run returns `0`. -/
theorem C10_noCallback (maxSize : Nat) (verbose : Bool) :
    (∀ (st : BotState) (m : Msg) (rest : List Msg), st.queue = m :: rest →
      st.stop = false →
      senderIter none verbose st = ({ st with queue := rest }, false)) ∧
    (∀ (actions : List Action) (st : BotState),
      (runTrace maxSize none verbose st actions).sentCount = st.sentCount) ∧
    (∀ actions : List Action,
      (runTrace maxSize none verbose initState actions).fatalCobraError = false →
      botRun maxSize none verbose actions = 0) := by
  refine ⟨?_, fun actions => runTrace_none_sent maxSize verbose actions, ?_⟩
  · intro st m rest hq hstop
    simp [senderIter, queuePop, hq, hstop]
  · intro actions hfatal
    unfold botRun runResult
    rw [hfatal]
    rw [runTrace_none_sent maxSize verbose actions initState]
    rfl

/-- Witness for `C10_noCallback`: a run that receives one message and performs
one sender iteration with no callback registered returns `0`. -/
theorem C10_noCallback_witness :
    senderIter none false { initState with queue := [5] }
      = ({ initState with queue := ([] : List Msg) }, false) ∧
    botRun 4 none false [Action.inbound 5, Action.senderStep] = 0 := by
  constructor
  · have h := (C10_noCallback 4 false).1 { initState with queue := [5] } 5 [] rfl rfl
    simpa using h
  · exact (C10_noCallback 4 false).2.2 [Action.inbound 5, Action.senderStep] rfl

/-- `queueAdd` discards an element exactly when the queue is at capacity and
nonempty (at capacity `0` the evicted "head" of the empty queue is nothing,
so no element is lost). -/
def addEvicts (maxSize : Nat) (q : List Msg) : Bool :=
  q.length == maxSize && !q.isEmpty

/-- The trace property "no inbound delivery causes the queue to evict an
element", evaluated step by step against the evolving state. -/
def noEvictionDrop (maxSize : Nat) (cb : Option BotCallback) (verbose : Bool) :
    BotState → List Action → Bool
  | _, [] => true
  | st, a :: rest =>
    (match a with
     | .inbound _ => st.throttled || !(addEvicts maxSize st.queue)
     | _ => true)
    && noEvictionDrop maxSize cb verbose (stepAction maxSize cb verbose st a) rest

lemma queueAdd_no_evict (maxSize : Nat) (q : List Msg) (m : Msg)
    (h : addEvicts maxSize q = false) : queueAdd maxSize q m = q ++ [m] := by
  unfold addEvicts at h
  unfold queueAdd
  split
  · rename_i hlen
    cases q with
    | nil => rfl
    | cons a t => simp [hlen] at h
  · rfl

lemma senderIter_empty (cb : Option BotCallback) (verbose : Bool)
    (st : BotState) (hq : st.queue = []) (hstop : st.stop = false) :
    (senderIter cb verbose st).1 = st := by
  obtain ⟨sc, rc, sp, th, fe, q⟩ := st
  simp at hq hstop
  subst hq hstop
  simp [senderIter, queuePop]

lemma senderIter_success (f : BotCallback) (verbose : Bool) (st : BotState)
    (m : Msg) (t : List Msg) (hq : st.queue = m :: t) (hstop : st.stop = false)
    (hf : f m verbose st.throttled = (true, false)) :
    (senderIter (some f) verbose st).1
      = { st with queue := t, throttled := false,
                  sentCount := st.sentCount + 1 } := by
  obtain ⟨sc, rc, sp, th, fe, q⟩ := st
  simp at hq hstop hf ⊢
  subst hq hstop
  simp [senderIter, queuePop, hf]

lemma runTrace_accounting (maxSize : Nat) (f : BotCallback) (verbose : Bool)
    (hf : ∀ m v, f m v false = (true, false)) (actions : List Action) :
    ∀ st : BotState, st.stop = false → st.throttled = false →
      noEvictionDrop maxSize (some f) verbose st actions = true →
      (runTrace maxSize (some f) verbose st actions).stop = false ∧
      (runTrace maxSize (some f) verbose st actions).throttled = false ∧
      ((runTrace maxSize (some f) verbose st actions).sentCount
          + (runTrace maxSize (some f) verbose st actions).queue.length
        = st.sentCount + st.queue.length + countInbound actions) ∧
      (runTrace maxSize (some f) verbose st actions).receivedCount
        = st.receivedCount + countInbound actions := by
  induction actions with
  | nil =>
    intro st h1 h2 _
    exact ⟨h1, h2, by simp [runTrace, countInbound], by simp [runTrace, countInbound]⟩
  | cons a rest ih =>
    intro st h1 h2 hnd
    rw [runTrace_cons]
    cases a with
    | connEvent e =>
      simp only [noEvictionDrop, Bool.true_and] at hnd
      have hstep : stepAction maxSize (some f) verbose st (.connEvent e)
          = handleEvent st e := rfl
      rw [hstep] at hnd ⊢
      have hframe := handleEvent_frame st e
      have hrec := ih (handleEvent st e) (by rw [hframe.2.2.1]; exact h1)
        (by rw [hframe.2.2.2.1]; exact h2) hnd
      refine ⟨hrec.1, hrec.2.1, ?_, ?_⟩
      · rw [hrec.2.2.1, hframe.1, hframe.2.2.2.2, countInbound]
      · rw [hrec.2.2.2, hframe.2.1, countInbound]
    | inbound m =>
      simp only [noEvictionDrop, h2, Bool.false_or] at hnd
      have hcond := Bool.and_eq_true_iff.mp hnd
      have hnoev : addEvicts maxSize st.queue = false := by
        simpa using hcond.1
      have hstep : stepAction maxSize (some f) verbose st (.inbound m)
          = { st with receivedCount := st.receivedCount + 1,
                      queue := st.queue ++ [m] } := by
        simp [stepAction, onInboundMessage, h2, queueAdd_no_evict maxSize st.queue m hnoev]
      rw [hstep] at hnd ⊢
      have hrec := ih
        { st with receivedCount := st.receivedCount + 1, queue := st.queue ++ [m] }
        h1 h2 (Bool.and_eq_true_iff.mp hnd).2
      refine ⟨hrec.1, hrec.2.1, ?_, ?_⟩
      · rw [hrec.2.2.1, countInbound]
        show st.sentCount + (st.queue ++ [m]).length + countInbound rest
          = st.sentCount + st.queue.length + (countInbound rest + 1)
        simp only [List.length_append, List.length_cons, List.length_nil]
        omega
      · rw [hrec.2.2.2, countInbound]
        show st.receivedCount + 1 + countInbound rest
          = st.receivedCount + (countInbound rest + 1)
        omega
    | senderStep =>
      simp only [noEvictionDrop, Bool.true_and] at hnd
      cases hq : st.queue with
      | nil =>
        have hstep : stepAction maxSize (some f) verbose st .senderStep = st := by
          simp [stepAction, senderIter_empty (some f) verbose st hq h1]
        rw [hstep] at hnd ⊢
        have hrec := ih st h1 h2 hnd
        exact ⟨hrec.1, hrec.2.1, by rw [hrec.2.2.1, countInbound, hq],
          by rw [hrec.2.2.2, countInbound]⟩
      | cons m t =>
        have hcall : f m verbose st.throttled = (true, false) := by
          rw [h2]; exact hf m verbose
        have hstep : stepAction maxSize (some f) verbose st .senderStep
            = { st with queue := t, throttled := false,
                        sentCount := st.sentCount + 1 } := by
          simp [stepAction, senderIter_success f verbose st m t hq h1 hcall]
        rw [hstep] at hnd ⊢
        have hrec := ih
          { st with queue := t, throttled := false, sentCount := st.sentCount + 1 }
          h1 rfl hnd
        refine ⟨hrec.1, hrec.2.1, ?_, ?_⟩
        · rw [hrec.2.2.1, countInbound]
          show st.sentCount + 1 + t.length + countInbound rest
            = st.sentCount + (m :: t).length + countInbound rest
          simp only [List.length_cons]
          omega
        · rw [hrec.2.2.2, countInbound]

/-- C1: a run in which `N` inbound messages are delivered, none is dropped by
the throttle (the flag stays clear: the callback always answers
`(true, false)`) or by queue eviction, every delivered message is eventually
dispatched (final queue empty), and no fatal event fires, returns exactly
`N`, the final `sentCount` — one increment per successful callback. -/
theorem C1_sentAccounting (maxSize : Nat) (f : BotCallback) (verbose : Bool)
    (actions : List Action) (N : Nat)
    (hf : ∀ m v, f m v false = (true, false))
    (hdrop : noEvictionDrop maxSize (some f) verbose initState actions = true)
    (hN : countInbound actions = N)
    (hdrain : (runTrace maxSize (some f) verbose initState actions).queue = [])
    (hfatal : (runTrace maxSize (some f) verbose initState actions).fatalCobraError
      = false) :
    botRun maxSize (some f) verbose actions = (N : Int) ∧
    (runTrace maxSize (some f) verbose initState actions).sentCount = N := by
  have hacc := runTrace_accounting maxSize f verbose hf actions initState rfl rfl hdrop
  have hsent : (runTrace maxSize (some f) verbose initState actions).sentCount = N := by
    have h := hacc.2.2.1
    rw [hdrain, hN] at h
    simpa [initState] using h
  refine ⟨?_, hsent⟩
  unfold botRun runResult
  rw [hfatal, hsent]
  simp

/-- Witness for `C1_sentAccounting`: two messages delivered and dispatched
through an always-successful callback; the run returns `2`. -/
theorem C1_sentAccounting_witness :
    botRun 2 (some fun _ _ _ => (true, false)) false
      [Action.inbound 1, Action.senderStep, Action.inbound 2, Action.senderStep]
      = (2 : Int) :=
  (C1_sentAccounting 2 (fun _ _ _ => (true, false)) false
    [Action.inbound 1, Action.senderStep, Action.inbound 2, Action.senderStep] 2
    (fun m v => rfl) (by decide) rfl (by decide) (by decide)).1

/-- Decimal character sequence printed for an unsigned counter by
`operator<<` on a stringstream: most significant digit first, `0` printed as
"0". -/
def natDecimal (n : Nat) : List Char :=
  if n = 0 then ['0'] else ((Nat.digits 10 n).map Nat.digitChar).reverse

/-- The stringstream contents built by one heartbeat tick (IXCobraBot.cpp
lines 63-65); note there is no separator between the received count and the
following "messages sent " literal. -/
def snapshot (receivedCount sentCount : Nat) : String :=
  String.mk ("messages received ".data ++ (natDecimal receivedCount
    ++ ("messages sent ".data ++ natDecimal sentCount)))

lemma digitChar_inj (a b : Fin 10)
    (h : Nat.digitChar a.val = Nat.digitChar b.val) : a = b := by
  revert h
  revert a b
  decide

lemma digitChar_isDigit (d : Fin 10) : (Nat.digitChar d.val).isDigit = true := by
  revert d
  decide

lemma natDecimal_isDigit (n : Nat) : ∀ c ∈ natDecimal n, c.isDigit = true := by
  intro c hc
  unfold natDecimal at hc
  split at hc
  · simp at hc
    subst hc
    decide
  · rw [List.mem_reverse] at hc
    obtain ⟨d, hd, rfl⟩ := List.mem_map.mp hc
    have hlt : d < 10 := Nat.digits_lt_base (by norm_num) hd
    exact digitChar_isDigit ⟨d, hlt⟩

lemma map_digitChar_inj : ∀ (l1 l2 : List Nat), (∀ d ∈ l1, d < 10) →
    (∀ d ∈ l2, d < 10) →
    l1.map Nat.digitChar = l2.map Nat.digitChar → l1 = l2 := by
  intro l1
  induction l1 with
  | nil =>
    intro l2 _ _ h
    cases l2 with
    | nil => rfl
    | cons d2 t2 => simp at h
  | cons d t ih =>
    intro l2 h1 h2 h
    cases l2 with
    | nil => simp at h
    | cons d2 t2 =>
      simp only [List.map_cons, List.cons.injEq] at h
      have hd : d = d2 := by
        have hda : d < 10 := h1 d (by simp)
        have hdb : d2 < 10 := h2 d2 (by simp)
        have := digitChar_inj ⟨d, hda⟩ ⟨d2, hdb⟩ h.1
        simpa using this
      have ht : t = t2 := ih t2 (fun x hx => h1 x (by simp [hx]))
        (fun x hx => h2 x (by simp [hx])) h.2
      rw [hd, ht]

lemma natDecimal_inj {a b : Nat} (h : natDecimal a = natDecimal b) : a = b := by
  unfold natDecimal at h
  by_cases ha : a = 0 <;> by_cases hb : b = 0
  · omega
  · exfalso
    rw [if_pos ha, if_neg hb] at h
    have hmap : (Nat.digits 10 b).map Nat.digitChar = ['0'] := by
      have := congrArg List.reverse h
      simpa using this.symm
    have hdig : Nat.digits 10 b = [0] := by
      cases hd : Nat.digits 10 b with
      | nil => rw [hd] at hmap; simp at hmap
      | cons d tl =>
        rw [hd] at hmap
        simp only [List.map_cons, List.cons.injEq, List.map_eq_nil_iff] at hmap
        have hlt : d < 10 := Nat.digits_lt_base (by norm_num) (by rw [hd]; simp)
        have hd0 : d = 0 := by
          have := digitChar_inj ⟨d, hlt⟩ ⟨0, by norm_num⟩ (by simpa using hmap.1)
          simpa [Fin.ext_iff] using this
        rw [hd0, hmap.2]
    have : b = 0 := by
      have hof := Nat.ofDigits_digits 10 b
      rw [hdig] at hof
      simpa [Nat.ofDigits] using hof.symm
    exact hb this
  · exfalso
    rw [if_neg ha, if_pos hb] at h
    have hmap : (Nat.digits 10 a).map Nat.digitChar = ['0'] := by
      have := congrArg List.reverse h
      simpa using this
    have hdig : Nat.digits 10 a = [0] := by
      cases hd : Nat.digits 10 a with
      | nil => rw [hd] at hmap; simp at hmap
      | cons d tl =>
        rw [hd] at hmap
        simp only [List.map_cons, List.cons.injEq, List.map_eq_nil_iff] at hmap
        have hlt : d < 10 := Nat.digits_lt_base (by norm_num) (by rw [hd]; simp)
        have hd0 : d = 0 := by
          have := digitChar_inj ⟨d, hlt⟩ ⟨0, by norm_num⟩ (by simpa using hmap.1)
          simpa [Fin.ext_iff] using this
        rw [hd0, hmap.2]
    have : a = 0 := by
      have hof := Nat.ofDigits_digits 10 a
      rw [hdig] at hof
      simpa [Nat.ofDigits] using hof.symm
    exact ha this
  · rw [if_neg ha, if_neg hb] at h
    have hmap := List.reverse_injective h
    have hdig := map_digitChar_inj (Nat.digits 10 a) (Nat.digits 10 b)
      (fun d hd => Nat.digits_lt_base (by norm_num) hd)
      (fun d hd => Nat.digits_lt_base (by norm_num) hd) hmap
    exact Nat.digits_inj_iff.mp hdig

lemma digit_prefix_split : ∀ (l1 l2 r1 r2 : List Char),
    (∀ c ∈ l1, c.isDigit = true) → (∀ c ∈ l2, c.isDigit = true) →
    (∀ c, r1.head? = some c → c.isDigit = false) →
    (∀ c, r2.head? = some c → c.isDigit = false) →
    l1 ++ r1 = l2 ++ r2 → l1 = l2 ∧ r1 = r2 := by
  intro l1
  induction l1 with
  | nil =>
    intro l2 r1 r2 _ h2 hr1 _ h
    cases l2 with
    | nil => exact ⟨rfl, h⟩
    | cons c2 t2 =>
      exfalso
      simp only [List.nil_append] at h
      have hc2 : r1.head? = some c2 := by rw [h]; rfl
      have := hr1 c2 hc2
      rw [h2 c2 (by simp)] at this
      cases this
  | cons c1 t1 ih =>
    intro l2 r1 r2 h1 h2 hr1 hr2 h
    cases l2 with
    | nil =>
      exfalso
      simp only [List.nil_append] at h
      have hc1 : r2.head? = some c1 := by rw [← h]; rfl
      have := hr2 c1 hc1
      rw [h1 c1 (by simp)] at this
      cases this
    | cons c2 t2 =>
      simp only [List.cons_append, List.cons.injEq] at h
      obtain ⟨ht, hr⟩ := ih t2 r1 r2 (fun c hc => h1 c (by simp [hc]))
        (fun c hc => h2 c (by simp [hc])) hr1 hr2 h.2
      exact ⟨by rw [h.1, ht], hr⟩

lemma sent_literal_head (t : List Char) :
    ∀ c, ("messages sent ".data ++ t).head? = some c → c.isDigit = false := by
  intro c hc
  rw [show "messages sent ".data = 'm' :: "essages sent ".data from rfl] at hc
  simp only [List.cons_append, List.head?_cons, Option.some.injEq] at hc
  subst hc
  decide

lemma snapshot_inj {r1 s1 r2 s2 : Nat}
    (h : snapshot r1 s1 = snapshot r2 s2) : r1 = r2 ∧ s1 = s2 := by
  have hdata : natDecimal r1 ++ ("messages sent ".data ++ natDecimal s1)
      = natDecimal r2 ++ ("messages sent ".data ++ natDecimal s2) :=
    List.append_cancel_left (congrArg String.data h)
  obtain ⟨hfst, hsnd⟩ := digit_prefix_split _ _ _ _
    (natDecimal_isDigit r1) (natDecimal_isDigit r2)
    (sent_literal_head (natDecimal s1)) (sent_literal_head (natDecimal s2)) hdata
  refine ⟨natDecimal_inj hfst, natDecimal_inj ?_⟩
  exact List.append_cancel_left hsnd

lemma snapshot_ne_na (r s : Nat) : snapshot r s ≠ "na" := by
  intro h
  have h2 := congrArg (fun str => str.data.head?) h
  simp only [snapshot] at h2
  simp at h2

/-- Result of running the heartbeat watchdog against a finite sequence of
observations: `exitedProcess` models the `exit(1)` call, `stoppedLoop` the
regular loop exit on `stop` (or the early return when disabled), `pending` a
loop still waiting for more ticks. -/
inductive HbOutcome where
  | exitedProcess
  | stoppedLoop
  | pending
  deriving DecidableEq, Repr

/-- One heartbeat tick observation: the values of `stop`, `receivedCount` and
`sentCount` read at the top of a watchdog iteration. -/
abbrev HbObs := Bool × Nat × Nat

/-- Snapshot string of one observation. -/
def snapOf (o : HbObs) : String := snapshot o.2.1 o.2.2

/-- The heartbeat watchdog loop (IXCobraBot.cpp lines 61-78), driven by the
per-tick observations of `(stop, receivedCount, sentCount)`: check `stop`,
build the snapshot string, `exit(1)` when it equals the previous one,
otherwise remember it and sleep a minute. -/
def heartbeatAux (state : String) : List HbObs → HbOutcome
  | [] => .pending
  | o :: rest =>
    if o.1 then .stoppedLoop
    else if snapshot o.2.1 o.2.2 = state then .exitedProcess
    else heartbeatAux (snapshot o.2.1 o.2.2) rest

/-- The heartbeat thread body (lines 56-81): `state` starts as `"na"`, and
when `enableHeartbeat` is false the thread returns before entering the
loop. -/
def heartbeatRun (enableHeartbeat : Bool) (obs : List HbObs) : HbOutcome :=
  if enableHeartbeat then heartbeatAux "na" obs else .stoppedLoop

lemma heartbeatAux_prev (obs : List HbObs) :
    ∀ prev : HbObs, (∀ o ∈ obs, o.1 = false) →
    (heartbeatAux (snapOf prev) obs = .exitedProcess ↔
      ¬ List.Chain' (fun a b => snapOf a ≠ snapOf b) (prev :: obs)) := by
  induction obs with
  | nil =>
    intro prev _
    simp [heartbeatAux]
  | cons o rest ih =>
    intro prev hstop
    have ho : o.1 = false := hstop o (by simp)
    have hrest : ∀ x ∈ rest, x.1 = false := fun x hx => hstop x (by simp [hx])
    rw [List.chain'_cons]
    have hunf : heartbeatAux (snapOf prev) (o :: rest)
        = if snapOf o = snapOf prev then .exitedProcess
          else heartbeatAux (snapOf o) rest := by
      simp [heartbeatAux, ho, snapOf]
    rw [hunf]
    by_cases heq : snapOf o = snapOf prev
    · rw [if_pos heq]
      exact iff_of_true rfl (fun hconj => hconj.1 heq.symm)
    · rw [if_neg heq, ih o hrest]
      constructor
      · intro hnc hconj
        exact hnc hconj.2
      · intro hn hc
        exact hn ⟨fun he => heq he.symm, hc⟩

/-- C5: the heartbeat watchdog (a) never monitors nor kills the process when
disabled — the loop exits immediately; (b) two snapshot strings are equal
exactly when both counters are unchanged (so, the counters being monotone,
exactly when zero messages were received and zero sent across the interval);
(c) when enabled and not stopped, it terminates the process exactly when the
snapshot at some tick equals the snapshot at the previous tick. -/
theorem C5_heartbeatWatchdog :
    (∀ obs : List HbObs, heartbeatRun false obs = .stoppedLoop) ∧
    (∀ r s r' s' : Nat, r ≤ r' → s ≤ s' →
      (snapshot r' s' = snapshot r s ↔ (r' = r ∧ s' = s))) ∧
    (∀ obs : List HbObs, (∀ o ∈ obs, o.1 = false) →
      (heartbeatRun true obs = .exitedProcess ↔
        ∃ i, ∃ h : i + 1 < obs.length,
          snapOf (obs.get ⟨i + 1, h⟩) = snapOf (obs.get ⟨i, Nat.lt_of_succ_lt h⟩))) := by
  refine ⟨?_, ?_, ?_⟩
  · intro obs
    simp [heartbeatRun]
  · intro r s r' s' _ _
    constructor
    · intro h
      exact snapshot_inj h
    · rintro ⟨rfl, rfl⟩
      rfl
  · intro obs hstop
    cases obs with
    | nil =>
      constructor
      · intro h
        simp [heartbeatRun, heartbeatAux] at h
      · rintro ⟨i, hi, _⟩
        simp at hi
    | cons o rest =>
      have ho : o.1 = false := hstop o (by simp)
      have hrest : ∀ x ∈ rest, x.1 = false := fun x hx => hstop x (by simp [hx])
      have hne : snapshot o.2.1 o.2.2 ≠ "na" := snapshot_ne_na _ _
      have hstep : heartbeatRun true (o :: rest) = heartbeatAux (snapOf o) rest := by
        simp [heartbeatRun, heartbeatAux, ho, hne, snapOf]
      rw [hstep, heartbeatAux_prev rest o hrest, List.chain'_iff_get]
      push_neg
      constructor
      · rintro ⟨i, hi, hei⟩
        have hb : i + 1 < (o :: rest).length := by
          simp only [List.length_cons] at hi ⊢
          omega
        exact ⟨i, hb, hei.symm⟩
      · rintro ⟨i, hi, hei⟩
        have hb : i < (o :: rest).length - 1 := by
          simp only [List.length_cons] at hi ⊢
          omega
        exact ⟨i, hb, hei.symm⟩

/-- Witness for `C5_heartbeatWatchdog`: a disabled watchdog exits its loop at
once; equal counters give equal snapshots; two consecutive identical
observations make the enabled watchdog kill the process. -/
theorem C5_heartbeatWatchdog_witness :
    heartbeatRun false [(false, 1, 2)] = .stoppedLoop ∧
    snapshot 3 4 = snapshot 3 4 ∧
    heartbeatRun true [(false, 3, 4), (false, 3, 4)] = .exitedProcess := by
  refine ⟨C5_heartbeatWatchdog.1 [(false, 1, 2)], ?_, ?_⟩
  · exact (C5_heartbeatWatchdog.2.1 3 4 3 4 (le_refl 3) (le_refl 4)).mpr ⟨rfl, rfl⟩
  · exact (C5_heartbeatWatchdog.2.2 [(false, 3, 4), (false, 3, 4)]
      (by decide)).mpr ⟨0, by simp, rfl⟩

/-- The `if (runtime == -1)` test selecting the run-forever supervision mode
(IXCobraBot.cpp line 202). -/
def runtimeForever (runtime : Int) : Bool := runtime == -1

/-- Ticks executed by the bounded supervision loop
`for (int i = 0; i < runtime; ++i) { sleep(1s); if (fatalCobraError) break; }`
with `n` iterations remaining, `i` the current loop index: each iteration
sleeps one second (one tick) and breaks at the first observation of
`fatalCobraError`; `fatal j` is the flag value observed at the end of
tick `j`. -/
def countFrom (fatal : Nat → Bool) : Nat → Nat → Nat
  | _, 0 => 0
  | i, n + 1 => if fatal i then 1 else 1 + countFrom fatal (i + 1) n

/-- Total sleep ticks of the bounded supervision branch (lines 213-222): a
counted `for` loop with an `int` bound runs `max(runtime, 0) = runtime.toNat`
iterations absent the break. -/
def boundedTicks (fatal : Nat → Bool) (runtime : Int) : Nat :=
  countFrom fatal 0 runtime.toNat

/-- The run-forever branch (lines 202-211), executed with explicit fuel:
`some t` means the loop broke after executing `t` ticks in total (counting
from tick `0`), `none` that it was still running when the fuel ran out. -/
def foreverTicks (fatal : Nat → Bool) : Nat → Nat → Option Nat
  | _, 0 => none
  | i, fuel + 1 =>
    if fatal i then some (i + 1) else foreverTicks fatal (i + 1) fuel

/-- The progress-logger loop `while (!stop) { log; sleep(1s); }`
(lines 42-52), driven by the per-iteration observations of `stop`; the result
is `true` exactly when the loop exited within the observations. -/
def timerLoop : List Bool → Bool
  | [] => false
  | stopObs :: rest => if stopObs then true else timerLoop rest

lemma countFrom_no_fatal (fatal : Nat → Bool) :
    ∀ (n i : Nat), (∀ j, i ≤ j → j < i + n → fatal j = false) →
    countFrom fatal i n = n := by
  intro n
  induction n with
  | zero => intro i _; rfl
  | succ n ih =>
    intro i h
    rw [countFrom, if_neg (by rw [h i (le_refl i) (by omega)]; simp)]
    rw [ih (i + 1) (fun j hj1 hj2 => h j (by omega) (by omega))]
    omega

lemma countFrom_first_fatal (fatal : Nat → Bool) :
    ∀ (n i j : Nat), i ≤ j → j < i + n → fatal j = true →
    (∀ k, i ≤ k → k < j → fatal k = false) →
    countFrom fatal i n = j - i + 1 := by
  intro n
  induction n with
  | zero => intro i j h1 h2 _ _; omega
  | succ n ih =>
    intro i j h1 h2 hj hk
    by_cases hij : i = j
    · subst hij
      rw [countFrom, if_pos hj]
      omega
    · have hlt : i < j := by omega
      rw [countFrom, if_neg (by rw [hk i (le_refl i) hlt]; simp)]
      rw [ih (i + 1) j (by omega) (by omega) hj
        (fun k hk1 hk2 => hk k (by omega) hk2)]
      omega

lemma foreverTicks_no_fatal (fatal : Nat → Bool) (h : ∀ j, fatal j = false) :
    ∀ (fuel i : Nat), foreverTicks fatal i fuel = none := by
  intro fuel
  induction fuel with
  | zero => intro i; rfl
  | succ fuel ih =>
    intro i
    rw [foreverTicks, if_neg (by rw [h i]; simp)]
    exact ih (i + 1)

lemma foreverTicks_first_fatal (fatal : Nat → Bool) :
    ∀ (fuel i j : Nat), i ≤ j → j < i + fuel → fatal j = true →
    (∀ k, i ≤ k → k < j → fatal k = false) →
    foreverTicks fatal i fuel = some (j + 1) := by
  intro fuel
  induction fuel with
  | zero => intro i j h1 h2 _ _; omega
  | succ fuel ih =>
    intro i j h1 h2 hj hk
    by_cases hij : i = j
    · subst hij
      rw [foreverTicks, if_pos hj]
    · have hlt : i < j := by omega
      rw [foreverTicks, if_neg (by rw [hk i (le_refl i) hlt]; simp)]
      exact ih (i + 1) j (by omega) (by omega) hj
        (fun k hk1 hk2 => hk k (by omega) hk2)

/-- C6: the supervision loop runs exactly `runtime` one-second ticks in the
bounded mode (or, in the `-1` mode, runs for any amount of fuel) when
`fatalCobraError` stays false; in both modes it stops at the first tick at
which the flag is observed true; after the loop, shutdown publishes
`stop = true` (without touching the result-relevant fields); and every worker
loop — sender, progress logger, heartbeat — exits as soon as it observes
`stop` at its own per-iteration check. -/
theorem C6_supervisionShutdown :
    (∀ (fatal : Nat → Bool) (runtime : Int),
      (∀ j, j < runtime.toNat → fatal j = false) →
      boundedTicks fatal runtime = runtime.toNat) ∧
    (∀ (fatal : Nat → Bool) (runtime : Int) (j : Nat), (j : Int) < runtime →
      fatal j = true → (∀ k, k < j → fatal k = false) →
      boundedTicks fatal runtime = j + 1) ∧
    (∀ (fatal : Nat → Bool) (fuel j : Nat), j < fuel →
      fatal j = true → (∀ k, k < j → fatal k = false) →
      foreverTicks fatal 0 fuel = some (j + 1)) ∧
    (∀ (fatal : Nat → Bool) (fuel : Nat), (∀ j, fatal j = false) →
      foreverTicks fatal 0 fuel = none) ∧
    (∀ st : BotState, (shutdown st).stop = true ∧
      (shutdown st).sentCount = st.sentCount ∧
      (shutdown st).fatalCobraError = st.fatalCobraError) ∧
    (∀ (cb : Option BotCallback) (verbose : Bool) (st : BotState),
      st.stop = true → (senderIter cb verbose st).2 = true) ∧
    (∀ obs : List Bool, timerLoop obs = true ↔ true ∈ obs) ∧
    (∀ (state : String) (r s : Nat) (rest : List HbObs),
      heartbeatAux state ((true, r, s) :: rest) = .stoppedLoop) := by
  refine ⟨?_, ?_, ?_, ?_, ?_, ?_, ?_, ?_⟩
  · intro fatal runtime h
    exact countFrom_no_fatal fatal runtime.toNat 0 (fun j _ hj => h j (by omega))
  · intro fatal runtime j hj hfj hk
    have hjn : j < runtime.toNat := by omega
    have := countFrom_first_fatal fatal runtime.toNat 0 j (by omega) (by omega)
      hfj (fun k _ hk2 => hk k hk2)
    rw [boundedTicks, this]
    omega
  · intro fatal fuel j hj hfj hk
    exact foreverTicks_first_fatal fatal fuel 0 j (by omega) (by omega) hfj
      (fun k _ hk2 => hk k hk2)
  · intro fatal fuel h
    exact foreverTicks_no_fatal fatal h fuel 0
  · intro st
    exact ⟨rfl, rfl, rfl⟩
  · intro cb verbose st hstop
    cases hq : st.queue <;> simp [senderIter, queuePop, hq, hstop]
  · intro obs
    induction obs with
    | nil => simp [timerLoop]
    | cons b rest ih =>
      cases b <;> simp [timerLoop, ih]
  · intro state r s rest
    rfl

/-- Witness for `C6_supervisionShutdown`: with the fatal flag first true at
tick `1`, a 3-tick bounded loop stops after 2 ticks and the unbounded loop
after 2 ticks; with the flag never true the bounded loop runs 3 full ticks
and the unbounded loop outlives any fuel; each worker loop exits at a `stop`
observation. -/
theorem C6_supervisionShutdown_witness :
    boundedTicks (fun _ => false) 3 = 3 ∧
    boundedTicks (fun j => j == 1) 3 = 2 ∧
    foreverTicks (fun j => j == 1) 0 5 = some 2 ∧
    foreverTicks (fun _ => false) 0 5 = none ∧
    (shutdown initState).stop = true ∧
    (senderIter none false { initState with stop := true }).2 = true ∧
    timerLoop [false, true] = true ∧
    heartbeatAux "na" [(true, 0, 0)] = .stoppedLoop := by
  refine ⟨?_, ?_, ?_, ?_, ?_, ?_, ?_, ?_⟩
  · exact C6_supervisionShutdown.1 (fun _ => false) 3 (fun j _ => rfl)
  · exact C6_supervisionShutdown.2.1 (fun j => j == 1) 3 1 (by decide) rfl
      (by decide)
  · exact C6_supervisionShutdown.2.2.1 (fun j => j == 1) 5 1 (by decide) rfl
      (by decide)
  · exact C6_supervisionShutdown.2.2.2.1 (fun _ => false) 5 (fun j => rfl)
  · exact (C6_supervisionShutdown.2.2.2.2.1 initState).1
  · exact C6_supervisionShutdown.2.2.2.2.2.1 none false
      { initState with stop := true } rfl
  · exact (C6_supervisionShutdown.2.2.2.2.2.2.1 [false, true]).mpr (by simp)
  · exact C6_supervisionShutdown.2.2.2.2.2.2.2 "na" 0 0 []

/-- C9: a negative `runtime` other than `-1` does not select the run-forever
branch and gives a bounded loop of zero iterations (`0 < runtime` fails at
once), so the run proceeds straight to shutdown and returns the current
`sentCount`, which is `0` when nothing was ever sent. -/
theorem C9_negativeRuntime (runtime : Int) (fatal : Nat → Bool)
    (h1 : runtime < 0) (h2 : runtime ≠ -1) :
    runtimeForever runtime = false ∧
    boundedTicks fatal runtime = 0 ∧
    (∀ (maxSize : Nat) (cb : Option BotCallback) (verbose : Bool),
      botRun maxSize cb verbose [] = 0) := by
  refine ⟨?_, ?_, ?_⟩
  · simp only [runtimeForever, beq_eq_false_iff_ne, ne_eq]
    exact h2
  · unfold boundedTicks
    rw [show runtime.toNat = 0 from by omega]
    rfl
  · intro maxSize cb verbose
    rfl

/-- Witness for `C9_negativeRuntime` at `runtime = -5`. -/
theorem C9_negativeRuntime_witness :
    runtimeForever (-5) = false ∧
    boundedTicks (fun _ => false) (-5) = 0 ∧
    botRun 4 none false [] = 0 := by
  have h := C9_negativeRuntime (-5) (fun _ => false) (by decide) (by decide)
  exact ⟨h.1, h.2.1, h.2.2 4 none false⟩

end IXCobraBot
